import Mathlib

/-!
Shallow embedding of `src/burger.py` (a burger-ordering CLI): the price
table, the price calculator with its recursive two-pass tax, the four
component collectors, the order assembler with its process-wide counter
and last-order cache, and the file persister.

Python floats are modelled as rationals (`ℚ`); the arithmetic involved is
exact at the scale of the claims.  Python exceptions are modelled with
`Except String`; `None`-able arguments with `Option`.  Logging is
modelled as a trace of log levels, and the filesystem as a trace of
operations.
-/

deriving instance DecidableEq for Except

namespace Burger

/-! ## Python string primitives

`burger.py` relies on Python's `str.strip`, `str.lower`, `str.split` and
`str.join`.  They are embedded structurally over the character list of a
`String` (ASCII-faithful, which covers every string the program
manipulates). -/

/-- The whitespace characters stripped by Python's `str.strip()`. -/
def pyIsSpace (c : Char) : Bool :=
  c == ' ' || c == '\t' || c == '\n' || c == '\r' || c == '\x0b' || c == '\x0c'

/-- Python `s.strip()`: drop leading and trailing whitespace. -/
def pyStrip (s : String) : String :=
  ⟨((s.data.dropWhile pyIsSpace).reverse.dropWhile pyIsSpace).reverse⟩

/-- Lower-case one character (ASCII range, as Python `str.lower` does on
the ASCII subset). -/
def lowerChar (c : Char) : Char :=
  if 65 ≤ c.toNat ∧ c.toNat ≤ 90 then Char.ofNat (c.toNat + 32) else c

/-- Python `s.lower()`. -/
def pyLower (s : String) : String :=
  ⟨s.data.map lowerChar⟩

/-- Split a character list on every occurrence of `sep`, scanning left to
right; `fuel` bounds the recursion and is supplied `≥` the list length. -/
def splitAux (sep : List Char) : Nat → List Char → List Char → List (List Char)
  | 0, _, acc => [acc.reverse]
  | _ + 1, [], acc => [acc.reverse]
  | fuel + 1, c :: rest, acc =>
    if sep.isPrefixOf (c :: rest) then
      acc.reverse :: splitAux sep fuel ((c :: rest).drop sep.length) []
    else
      splitAux sep fuel rest (c :: acc)

/-- Python `s.split(sep)` for a non-empty separator. -/
def pySplit (s sep : String) : List String :=
  (splitAux sep.data (s.data.length + 1) s.data []).map (fun l => (⟨l⟩ : String))

/-- Python `sep.join(parts)`. -/
def pyJoin (sep : String) : List String → String
  | [] => ""
  | [x] => x
  | x :: xs => x ++ sep ++ pyJoin sep xs

/-- Log levels used by the `logging` calls in `burger.py`. -/
inductive LogLevel where
  | info
  | warning
  | error
deriving DecidableEq, Repr, BEq

/-- `TAX_RATE = 0.1`. -/
def TAX_RATE : ℚ := 1 / 10

/-- `TAX_ITERATIONS = 2`. -/
def TAX_ITERATIONS : ℤ := 2

/-- `INGREDIENT_PRICES`: the static dict from ingredient name to unit
price, embedded as an association list in source order. -/
def INGREDIENT_PRICES : List (String × ℚ) :=
  [("bun", 2),
   ("beef", 5),
   ("chicken", 4),
   ("cheese", 1),
   ("tomato", 1 / 2),
   ("lettuce", 1 / 2),
   ("sauce", 3 / 10)]

/-- `INGREDIENT_PRICES.get(name, 0.0)`: dict lookup with default 0. -/
def priceLookup (name : String) : ℚ :=
  match INGREDIENT_PRICES.lookup name with
  | some p => p
  | none => 0

/-- The inner `sum_ingredients` of `calculate_burger_price`: iteratively
sum the table price of each case-normalized name, unknown names giving 0.
(The `except (AttributeError, TypeError)` branch guards against non-string
items, which cannot arise for `List String` inputs.) -/
def sum_ingredients (ingredients : List String) : ℚ :=
  ingredients.foldl (fun total ingredient => total + priceLookup (pyLower ingredient)) 0

/-- The inner `calculate_tax` of `calculate_burger_price`: recursively
multiply by `1 + TAX_RATE`, `iterations` times; any `iterations <= 0`
returns the price unchanged. -/
def calculate_tax (price : ℚ) (iterations : ℤ) : ℚ :=
  if iterations ≤ 0 then price
  else calculate_tax (price * (1 + TAX_RATE)) (iterations - 1)
termination_by iterations.toNat
decreasing_by simp_wf; omega

/-- `calculate_burger_price`: `None` or `[]` raise
`ValueError("Ingredients list cannot be empty")`; otherwise the summed
base price is taxed with `calculate_tax`.  (The `.copy()` made by the
source to protect the caller's list is a no-op in a pure setting.) -/
def calculate_burger_price (ingredients_list : Option (List String)) : Except String ℚ :=
  match ingredients_list with
  | none => .error "Ingredients list cannot be empty"
  | some [] => .error "Ingredients list cannot be empty"
  | some l => .ok (calculate_tax (sum_ingredients l) TAX_ITERATIONS)

/-- Every price in the table is non-negative. -/
theorem priceLookup_nonneg (s : String) : 0 ≤ priceLookup s := by
  unfold priceLookup
  rcases h : INGREDIENT_PRICES.lookup s with _ | p
  · norm_num
  · simp only [INGREDIENT_PRICES, List.lookup] at h
    repeat' split at h
    all_goals cases h
    all_goals norm_num

theorem sum_ingredients_foldl_nonneg (l : List String) (acc : ℚ) (h : 0 ≤ acc) :
    0 ≤ l.foldl (fun total ingredient => total + priceLookup (pyLower ingredient)) acc := by
  induction l generalizing acc with
  | nil => simpa using h
  | cons x xs ih =>
    exact ih _ (add_nonneg h (priceLookup_nonneg (pyLower x)))

/-- The base sum of ingredient prices is non-negative. -/
theorem sum_ingredients_nonneg (l : List String) : 0 ≤ sum_ingredients l :=
  sum_ingredients_foldl_nonneg l 0 le_rfl

/-- `calculate_tax` in closed form: the price times `(1 + TAX_RATE)` to
the power `iterations.toNat`. -/
theorem calculate_tax_pow_aux :
    ∀ (k : ℕ) (price : ℚ) (n : ℤ), n.toNat = k →
      calculate_tax price n = price * (1 + TAX_RATE) ^ k := by
  intro k
  induction k with
  | zero =>
    intro price n hk
    have hn : n ≤ 0 := by omega
    rw [calculate_tax]
    simp [hn]
  | succ k ih =>
    intro price n hk
    have hn : ¬ n ≤ 0 := by omega
    rw [calculate_tax]
    simp only [hn, if_false]
    rw [ih (price * (1 + TAX_RATE)) (n - 1) (by omega)]
    ring

theorem calculate_tax_pow (price : ℚ) (n : ℤ) :
    calculate_tax price n = price * (1 + TAX_RATE) ^ n.toNat :=
  calculate_tax_pow_aux n.toNat price n rfl

/-! ## Component collectors

Each interactive collector reads one line from standard input; the line
is modelled as an `Except String String` argument (`.error` when the
`input()` call itself raises, e.g. `EOFError`).  A collector returns the
chosen value together with the log entries it emits. -/

/-- `get_bun`: trim the input; empty input logs a warning and falls back
to `"sesame"`. -/
def get_bun (raw : Except String String) : Except String (String × List LogLevel) :=
  raw.map fun line =>
    let bun_type := pyStrip line
    if bun_type = "" then ("sesame", [LogLevel.warning]) else (bun_type, [])

/-- `get_bun_v2`: wraps `get_bun`. -/
def get_bun_v2 (raw : Except String String) : Except String (String × List LogLevel) :=
  get_bun raw

/-- The `valid_meats` set of `get_meat`. -/
def valid_meats : List String := ["beef", "chicken", "turkey", "fish", "veggie"]

/-- `get_meat`: trim the input; empty input logs a warning and falls back
to `"beef"`; a known meat is normalized to lowercase; anything else is
passed through with an informational log. -/
def get_meat (raw : Except String String) : Except String (String × List LogLevel) :=
  raw.map fun line =>
    let meat_type := pyStrip line
    if meat_type = "" then ("beef", [LogLevel.warning])
    else if pyLower meat_type ∈ valid_meats then (pyLower meat_type, [])
    else (meat_type, [LogLevel.info])

/-- `get_sauce`: deterministic; splits the base string on `" and "`,
trims the parts, and joins them back. -/
def get_sauce : String :=
  let base_sauce := "ketchup and mustard"
  let sauce_list := (pySplit base_sauce " and ").map pyStrip
  pyJoin " and " sauce_list

/-- `get_cheese`: trim the input; empty input logs a warning and falls
back to `"cheddar"`. -/
def get_cheese (raw : Except String String) : Except String (String × List LogLevel) :=
  raw.map fun line =>
    let cheese_type := pyStrip line
    if cheese_type = "" then ("cheddar", [LogLevel.warning]) else (cheese_type, [])

/-! ## Order assembler -/

/-- The process-wide mutable globals of `burger.py`:
`BURGER_COUNT` and `last_burger`. -/
structure BurgerState where
  burger_count : ℕ
  last_burger : Option String
deriving DecidableEq, Repr

/-- The fresh state at process start: `BURGER_COUNT = 0`,
`last_burger = None`. -/
def initialState : BurgerState := ⟨0, none⟩

/-- Python `round(x, 2)` (round half to even on the scaled value). -/
def round2 (q : ℚ) : ℚ :=
  let x := q * 100
  let f := ⌊x⌋
  let r := x - f
  let n : ℤ :=
    if r < 1 / 2 then f
    else if r > 1 / 2 then f + 1
    else if 2 ∣ f then f else f + 1
  (n : ℚ) / 100

/-- The `burger_data` dict built by `assemble_burger`: the four
components, the order id, and the rounded price.  (The timestamp is an
out-of-scope I/O collaborator and is not modelled.) -/
structure BurgerData where
  bun : String
  meat : String
  sauce : String
  cheese : String
  id : ℕ
  price : ℚ
deriving DecidableEq, Repr

/-- The description string `assemble_burger` formats from
`burger_data`. -/
def BurgerData.description (b : BurgerData) : String :=
  b.bun ++ " bun + " ++ b.meat ++ " + " ++ b.sauce ++ " + " ++ b.cheese ++ " cheese"

/-- `assemble_burger`: increments `BURGER_COUNT`, gathers the four
components in source order, prices the hardcoded list
`["bun", "meat", "cheese"]`, builds `burger_data` and the description,
and stores the description in `last_burger`.  Any exception in the
`try` block is caught: one error is logged and `None` is returned, the
already-incremented counter staying put.  Returns the new state, the
`burger_data` on success (whose `description` is the returned string),
and the emitted log trace. -/
def assemble_burger (bun_input meat_input cheese_input : Except String String)
    (s : BurgerState) : BurgerState × Option BurgerData × List LogLevel :=
  let s1 : BurgerState := { s with burger_count := s.burger_count + 1 }
  match get_bun bun_input with
  | .error _ => (s1, none, [LogLevel.error])
  | .ok (bun, bun_logs) =>
    match get_meat meat_input with
    | .error _ => (s1, none, bun_logs ++ [LogLevel.error])
    | .ok (meat, meat_logs) =>
      let sauce := get_sauce
      match get_cheese cheese_input with
      | .error _ => (s1, none, bun_logs ++ meat_logs ++ [LogLevel.error])
      | .ok (cheese, cheese_logs) =>
        let price_ingredients : List String := ["bun", "meat", "cheese"]
        match calculate_burger_price (some price_ingredients) with
        | .error _ => (s1, none, bun_logs ++ meat_logs ++ cheese_logs ++ [LogLevel.error])
        | .ok price =>
          let burger_data : BurgerData :=
            { bun := bun, meat := meat, sauce := sauce, cheese := cheese,
              id := s1.burger_count, price := round2 price }
          ({ s1 with last_burger := some burger_data.description },
           some burger_data,
           bun_logs ++ meat_logs ++ cheese_logs ++ [LogLevel.info])

/-! ## Persister -/

/-- Filesystem operations performed by `save_burger`. -/
inductive FsOp where
  | mkdtemp (dir : String)
  | write (path : String) (content : String)
deriving DecidableEq, Repr

/-- `save_burger`: an empty (or `None`) description logs an error and
returns `False` without touching storage; otherwise a fresh temporary
directory (its unique name supplied here as `temp_dir`) receives
`burger.txt` with the description and `burger_count.txt` with the
counter in decimal.  Returns the success flag and the trace of
filesystem operations.  (The `except (OSError, IOError)` branch models a
collaborator failure and is outside this pure embedding, which models a
healthy filesystem.) -/
def save_burger (burger : Option String) (burger_count : ℕ) (temp_dir : String) :
    Bool × List FsOp :=
  match burger with
  | none => (false, [])
  | some b =>
    if b = "" then (false, [])
    else
      (true,
       [FsOp.mkdtemp temp_dir,
        FsOp.write (temp_dir ++ "/burger.txt") b,
        FsOp.write (temp_dir ++ "/burger_count.txt") (toString burger_count)])

/-! ## Concrete evaluation helpers -/

theorem pyLower_literals :
    pyLower "bun" = "bun" ∧ pyLower "beef" = "beef" ∧ pyLower "cheese" = "cheese" ∧
    pyLower "meat" = "meat" := by decide

theorem priceLookup_literals :
    priceLookup "bun" = 2 ∧ priceLookup "beef" = 5 ∧ priceLookup "cheese" = 1 ∧
    priceLookup "meat" = 0 := by
  refine ⟨?_, ?_, ?_, ?_⟩ <;> decide

theorem sum_bbc : sum_ingredients ["bun", "beef", "cheese"] = 8 := by
  simp only [sum_ingredients, List.foldl, pyLower_literals.1, pyLower_literals.2.1,
    pyLower_literals.2.2.1, priceLookup_literals.1, priceLookup_literals.2.1,
    priceLookup_literals.2.2.1]
  norm_num

theorem sum_bmc : sum_ingredients ["bun", "meat", "cheese"] = 3 := by
  simp only [sum_ingredients, List.foldl, pyLower_literals.1, pyLower_literals.2.2.2,
    pyLower_literals.2.2.1, priceLookup_literals.1, priceLookup_literals.2.2.2,
    priceLookup_literals.2.2.1]
  norm_num

theorem get_sauce_eq : get_sauce = "ketchup and mustard" := by decide

theorem round2_363 : round2 (363 / 100) = 363 / 100 := by
  unfold round2
  norm_num

/-- On any non-empty list, `calculate_burger_price` succeeds with the
two-pass-taxed base sum. -/
theorem calculate_burger_price_ok (l : List String) (h : l ≠ []) :
    calculate_burger_price (some l) = .ok (sum_ingredients l * (1 + TAX_RATE) ^ 2) := by
  cases l with
  | nil => exact absurd rfl h
  | cons x xs =>
    simp only [calculate_burger_price]
    rw [calculate_tax_pow]
    rw [show TAX_ITERATIONS.toNat = 2 from rfl]

/-- The price of the hardcoded `["bun", "meat", "cheese"]` list. -/
theorem cbp_bmc363 :
    calculate_burger_price (some ["bun", "meat", "cheese"]) = .ok (363 / 100) := by
  rw [calculate_burger_price_ok _ (by decide), sum_bmc]
  norm_num [TAX_RATE]

theorem get_bun_sesame : get_bun (.ok "sesame") = .ok ("sesame", []) := by decide

theorem get_meat_beef : get_meat (.ok "beef") = .ok ("beef", []) := by decide

theorem get_cheese_cheddar : get_cheese (.ok "cheddar") = .ok ("cheddar", []) := by decide

/-- The reference successful run: collector inputs `"sesame"`, `"beef"`,
`"cheddar"` from the fresh state produce this exact `burger_data`. -/
theorem assemble_example_eq :
    (assemble_burger (.ok "sesame") (.ok "beef") (.ok "cheddar") initialState).2.1 =
      some ⟨"sesame", "beef", "ketchup and mustard", "cheddar", 1, 363 / 100⟩ := by
  simp only [assemble_burger, get_bun_sesame, get_meat_beef, get_cheese_cheddar,
    cbp_bmc363, get_sauce_eq, round2_363]
  rfl

/-! ## Claims -/

/-- C1: for every non-empty ingredient list, `calculate_burger_price`
returns the sum of recognized case-normalized prices (unknown names
contributing 0, per `sum_ingredients`) times `(1 + 0.1)^2`; the result is
non-negative, and a base sum of `8.0` yields `9.68`. -/
theorem calculate_burger_price_spec (l : List String) (h : l ≠ []) :
    calculate_burger_price (some l) = .ok (sum_ingredients l * (1 + TAX_RATE) ^ 2) ∧
    0 ≤ sum_ingredients l * (1 + TAX_RATE) ^ 2 ∧
    (sum_ingredients l = 8 → calculate_burger_price (some l) = .ok (968 / 100)) := by
  refine ⟨calculate_burger_price_ok l h, ?_, ?_⟩
  · exact mul_nonneg (sum_ingredients_nonneg l)
      (pow_nonneg (by norm_num [TAX_RATE]) 2)
  · intro h8
    rw [calculate_burger_price_ok l h, h8]
    norm_num [TAX_RATE]

theorem calculate_burger_price_spec_witness :
    calculate_burger_price (some ["bun", "beef", "cheese"]) = .ok (968 / 100) :=
  (calculate_burger_price_spec ["bun", "beef", "cheese"] (by decide)).2.2 sum_bbc

/-- C3 counterexample: the validation error message is
`"Ingredients list cannot be empty"`, not the claimed
`"ingredient list cannot be empty"`, for both the empty and the `None`
input. -/
theorem calculate_burger_price_message_counterexample :
    calculate_burger_price (some []) ≠ Except.error "ingredient list cannot be empty" ∧
    calculate_burger_price none ≠ Except.error "ingredient list cannot be empty" := by
  refine ⟨?_, ?_⟩ <;> decide

/-- C3 (amended): the empty list and the `None` input both fail with the
same validation error, whose message is
`"Ingredients list cannot be empty"`, and no other input produces this
error. -/
theorem calculate_burger_price_empty_error :
    calculate_burger_price none = .error "Ingredients list cannot be empty" ∧
    calculate_burger_price (some []) = .error "Ingredients list cannot be empty" ∧
    ∀ l : List String, l ≠ [] → ∃ q, calculate_burger_price (some l) = .ok q := by
  refine ⟨rfl, rfl, ?_⟩
  intro l h
  exact ⟨_, calculate_burger_price_ok l h⟩

theorem calculate_burger_price_empty_error_witness :
    ∃ q, calculate_burger_price (some ["bun"]) = .ok q :=
  calculate_burger_price_empty_error.2.2 ["bun"] (by decide)

/-- C8: `calculate_burger_price` is invariant under re-casing ingredient
names: lists equal up to `pyLower` price identically. -/
theorem calculate_burger_price_case_insensitive (l1 l2 : List String)
    (h : l1.map pyLower = l2.map pyLower) :
    calculate_burger_price (some l1) = calculate_burger_price (some l2) := by
  have hsum : ∀ (m1 m2 : List String) (acc : ℚ), m1.map pyLower = m2.map pyLower →
      m1.foldl (fun total ingredient => total + priceLookup (pyLower ingredient)) acc =
      m2.foldl (fun total ingredient => total + priceLookup (pyLower ingredient)) acc := by
    intro m1
    induction m1 with
    | nil =>
      intro m2 acc hm
      cases m2 with
      | nil => rfl
      | cons y ys => simp at hm
    | cons x xs ih =>
      intro m2 acc hm
      cases m2 with
      | nil => simp at hm
      | cons y ys =>
        simp only [List.map_cons, List.cons.injEq] at hm
        simp only [List.foldl]
        rw [hm.1]
        exact ih ys _ hm.2
  cases l1 with
  | nil =>
    cases l2 with
    | nil => rfl
    | cons y ys => simp at h
  | cons x xs =>
    cases l2 with
    | nil => simp at h
    | cons y ys =>
      simp only [calculate_burger_price, sum_ingredients]
      rw [hsum (x :: xs) (y :: ys) 0 h]

theorem calculate_burger_price_case_insensitive_witness :
    calculate_burger_price (some ["BUN", "BEEF", "CHEESE"]) =
      calculate_burger_price (some ["bun", "beef", "cheese"]) :=
  calculate_burger_price_case_insensitive _ _ (by decide)

/-- C9: `calculate_tax` is a total function of the price and the integer
iteration count (it is accepted by well-founded recursion on
`iterations.toNat`), equal in closed form to
`price * (1 + TAX_RATE) ^ iterations.toNat`, and any iteration count
`≤ 0` — zero or negative — returns the price unchanged. -/
theorem calculate_tax_total (price : ℚ) (n : ℤ) :
    calculate_tax price n = price * (1 + TAX_RATE) ^ n.toNat ∧
    (n ≤ 0 → calculate_tax price n = price) := by
  refine ⟨calculate_tax_pow price n, ?_⟩
  intro hn
  rw [calculate_tax_pow, Int.toNat_of_nonpos hn, pow_zero, mul_one]

theorem calculate_tax_total_witness : calculate_tax 5 (-3) = 5 :=
  (calculate_tax_total 5 (-3)).2 (by decide)

/-- C7: `save_burger` rejects an absent or empty description with `False`
and no filesystem operation; a non-empty description makes exactly one
fresh directory holding `burger.txt` with the description verbatim and
`burger_count.txt` with the counter in decimal. -/
theorem save_burger_spec (cnt : ℕ) (dir : String) :
    save_burger none cnt dir = (false, []) ∧
    save_burger (some "") cnt dir = (false, []) ∧
    ∀ b : String, b ≠ "" →
      save_burger (some b) cnt dir =
        (true, [FsOp.mkdtemp dir,
                FsOp.write (dir ++ "/burger.txt") b,
                FsOp.write (dir ++ "/burger_count.txt") (toString cnt)]) := by
  refine ⟨rfl, rfl, ?_⟩
  intro b hb
  simp only [save_burger]
  rw [if_neg hb]

theorem save_burger_spec_witness :
    save_burger (some "sesame bun") 2 "/tmp/burger_orders_a" =
      (true, [FsOp.mkdtemp "/tmp/burger_orders_a",
              FsOp.write "/tmp/burger_orders_a/burger.txt" "sesame bun",
              FsOp.write "/tmp/burger_orders_a/burger_count.txt" (toString 2)]) :=
  (save_burger_spec 2 "/tmp/burger_orders_a").2.2 "sesame bun" (by decide)

/-! ## Assembler case analysis -/

theorem get_bun_cases (r : Except String String) :
    (∃ e, get_bun r = .error e) ∨
    (∃ v logs, get_bun r = .ok (v, logs) ∧ logs.count LogLevel.error = 0) := by
  rcases r with e | l
  · exact .inl ⟨e, rfl⟩
  · right
    by_cases h1 : pyStrip l = ""
    · exact ⟨"sesame", [LogLevel.warning], by simp [get_bun, Except.map, h1], rfl⟩
    · exact ⟨pyStrip l, [], by simp [get_bun, Except.map, h1], rfl⟩

theorem get_meat_cases (r : Except String String) :
    (∃ e, get_meat r = .error e) ∨
    (∃ v logs, get_meat r = .ok (v, logs) ∧ logs.count LogLevel.error = 0) := by
  rcases r with e | l
  · exact .inl ⟨e, rfl⟩
  · right
    by_cases h1 : pyStrip l = ""
    · exact ⟨"beef", [LogLevel.warning], by simp [get_meat, Except.map, h1], rfl⟩
    · by_cases h2 : pyLower (pyStrip l) ∈ valid_meats
      · exact ⟨pyLower (pyStrip l), [], by simp [get_meat, Except.map, h1, h2], rfl⟩
      · exact ⟨pyStrip l, [LogLevel.info], by simp [get_meat, Except.map, h1, h2], rfl⟩

theorem get_cheese_cases (r : Except String String) :
    (∃ e, get_cheese r = .error e) ∨
    (∃ v logs, get_cheese r = .ok (v, logs) ∧ logs.count LogLevel.error = 0) := by
  rcases r with e | l
  · exact .inl ⟨e, rfl⟩
  · right
    by_cases h1 : pyStrip l = ""
    · exact ⟨"cheddar", [LogLevel.warning], by simp [get_cheese, Except.map, h1], rfl⟩
    · exact ⟨pyStrip l, [], by simp [get_cheese, Except.map, h1], rfl⟩

/-- The counter advances by exactly one on every invocation, whatever the
outcome. -/
theorem assemble_burger_count_succ (bi mi ci : Except String String) (s : BurgerState) :
    (assemble_burger bi mi ci s).1.burger_count = s.burger_count + 1 := by
  simp only [assemble_burger]
  repeat' split
  all_goals rfl

/-- C4: every invocation of `assemble_burger` increments the process-wide
counter by exactly 1 — already in effect when a collection step fails and
never rolled back — so the counter only increases, and two invocations
from the fresh state leave it at 2. -/
theorem assemble_burger_counter :
    (∀ bi mi ci s, (assemble_burger bi mi ci s).1.burger_count = s.burger_count + 1) ∧
    (∀ bi1 mi1 ci1 bi2 mi2 ci2,
      (assemble_burger bi2 mi2 ci2
        (assemble_burger bi1 mi1 ci1 initialState).1).1.burger_count = 2) := by
  refine ⟨assemble_burger_count_succ, ?_⟩
  intro bi1 mi1 ci1 bi2 mi2 ci2
  rw [assemble_burger_count_succ, assemble_burger_count_succ]
  rfl

/-- C5: when a collection step raises, `assemble_burger` returns `none`
with exactly one error-level log entry; no exception escapes (the
embedding is a total function by construction). -/
theorem assemble_burger_exception_contained (bi mi ci : Except String String) (s : BurgerState)
    (h : (∃ e, bi = .error e) ∨ (∃ e, mi = .error e) ∨ (∃ e, ci = .error e)) :
    (assemble_burger bi mi ci s).2.1 = none ∧
    (assemble_burger bi mi ci s).2.2.count LogLevel.error = 1 := by
  rcases get_bun_cases bi with ⟨e, hgb⟩ | ⟨bv, bl, hgb, hbl⟩
  · refine ⟨?_, ?_⟩ <;> simp only [assemble_burger, hgb]
    decide
  · rcases get_meat_cases mi with ⟨e, hgm⟩ | ⟨mv, ml, hgm, hml⟩
    · refine ⟨?_, ?_⟩ <;> simp only [assemble_burger, hgb, hgm]
      rw [List.count_append, hbl]
      decide
    · rcases get_cheese_cases ci with ⟨e, hgc⟩ | ⟨cv, cl, hgc, hcl⟩
      · refine ⟨?_, ?_⟩ <;> simp only [assemble_burger, hgb, hgm, hgc]
        rw [List.count_append, List.count_append, hbl, hml]
        decide
      · exfalso
        rcases h with ⟨e, he⟩ | ⟨e, he⟩ | ⟨e, he⟩
        · subst he; simp [get_bun, Except.map] at hgb
        · subst he; simp [get_meat, Except.map] at hgm
        · subst he; simp [get_cheese, Except.map] at hgc

theorem assemble_burger_exception_contained_witness :
    (assemble_burger (.error "EOFError") (.ok "beef") (.ok "cheddar") initialState).2.1 = none ∧
    (assemble_burger (.error "EOFError") (.ok "beef") (.ok "cheddar")
        initialState).2.2.count LogLevel.error = 1 :=
  assemble_burger_exception_contained _ _ _ initialState (Or.inl ⟨"EOFError", rfl⟩)

/-- The state after the reference successful run. -/
theorem assemble_example_state :
    (assemble_burger (.ok "sesame") (.ok "beef") (.ok "cheddar") initialState).1 =
      ⟨1, some "sesame bun + beef + ketchup and mustard + cheddar cheese"⟩ := by
  simp only [assemble_burger, get_bun_sesame, get_meat_beef, get_cheese_cheddar,
    cbp_bmc363, get_sauce_eq]
  rfl

/-- C6: with collector results bun `"sesame"`, meat `"beef"`, sauce
`"ketchup and mustard"`, cheese `"cheddar"`, a fresh `assemble_burger`
succeeds, its description is
`"sesame bun + beef + ketchup and mustard + cheddar cheese"`, and the
counter becomes 1. -/
theorem assemble_burger_success_description :
    (∀ (bi mi ci : Except String String) (s : BurgerState) (d : BurgerData),
      (assemble_burger bi mi ci s).2.1 = some d →
      ∃ bv bl mv ml cv cl,
        get_bun bi = .ok (bv, bl) ∧ get_meat mi = .ok (mv, ml) ∧
        get_cheese ci = .ok (cv, cl) ∧
        d.bun = bv ∧ d.meat = mv ∧ d.sauce = get_sauce ∧ d.cheese = cv ∧
        d.description =
          bv ++ " bun + " ++ mv ++ " + " ++ get_sauce ++ " + " ++ cv ++ " cheese") ∧
    ∃ d : BurgerData,
      (assemble_burger (.ok "sesame") (.ok "beef") (.ok "cheddar") initialState).2.1 = some d ∧
      d.description = "sesame bun + beef + ketchup and mustard + cheddar cheese" ∧
      (assemble_burger (.ok "sesame") (.ok "beef") (.ok "cheddar")
          initialState).1.burger_count = 1 ∧
      (assemble_burger (.ok "sesame") (.ok "beef") (.ok "cheddar")
          initialState).1.last_burger =
        some "sesame bun + beef + ketchup and mustard + cheddar cheese" := by
  constructor
  · intro bi mi ci s d h
    rcases get_bun_cases bi with ⟨e, hgb⟩ | ⟨bv, bl, hgb, -⟩
    · simp [assemble_burger, hgb] at h
    · rcases get_meat_cases mi with ⟨e, hgm⟩ | ⟨mv, ml, hgm, -⟩
      · simp [assemble_burger, hgb, hgm] at h
      · rcases get_cheese_cases ci with ⟨e, hgc⟩ | ⟨cv, cl, hgc, -⟩
        · simp [assemble_burger, hgb, hgm, hgc] at h
        · simp only [assemble_burger, hgb, hgm, hgc, cbp_bmc363] at h
          cases h
          exact ⟨bv, bl, mv, ml, cv, cl, hgb, hgm, hgc, rfl, rfl, rfl, rfl, rfl⟩
  · refine ⟨_, assemble_example_eq, ?_, ?_, ?_⟩
    · decide
    · rw [assemble_example_state]
    · rw [assemble_example_state]

theorem assemble_burger_success_description_witness :
    ∃ bv bl mv ml cv cl,
      get_bun (.ok "sesame") = .ok (bv, bl) ∧ get_meat (.ok "beef") = .ok (mv, ml) ∧
      get_cheese (.ok "cheddar") = .ok (cv, cl) ∧
      (⟨"sesame", "beef", "ketchup and mustard", "cheddar", 1, 363 / 100⟩ :
          BurgerData).bun = bv ∧
      (⟨"sesame", "beef", "ketchup and mustard", "cheddar", 1, 363 / 100⟩ :
          BurgerData).meat = mv ∧
      (⟨"sesame", "beef", "ketchup and mustard", "cheddar", 1, 363 / 100⟩ :
          BurgerData).sauce = get_sauce ∧
      (⟨"sesame", "beef", "ketchup and mustard", "cheddar", 1, 363 / 100⟩ :
          BurgerData).cheese = cv ∧
      (⟨"sesame", "beef", "ketchup and mustard", "cheddar", 1, 363 / 100⟩ :
          BurgerData).description =
        bv ++ " bun + " ++ mv ++ " + " ++ get_sauce ++ " + " ++ cv ++ " cheese" :=
  assemble_burger_success_description.1 (.ok "sesame") (.ok "beef") (.ok "cheddar")
    initialState _ assemble_example_eq

/-- C2: the price stored in `burger_data` is computed from the literal
hardcoded list `["bun", "meat", "cheese"]`, in which `"meat"` is not a
price-table key and contributes 0, so every successful order carries
price `(2 + 0 + 1) * 1.1^2 = 3.63` regardless of the user's inputs. -/
theorem assemble_burger_hardcoded_price (bi mi ci : Except String String) (s : BurgerState)
    (d : BurgerData) (h : (assemble_burger bi mi ci s).2.1 = some d) :
    d.price = 363 / 100 ∧ priceLookup "meat" = 0 := by
  refine ⟨?_, priceLookup_literals.2.2.2⟩
  rcases get_bun_cases bi with ⟨e, hgb⟩ | ⟨bv, bl, hgb, -⟩
  · simp [assemble_burger, hgb] at h
  · rcases get_meat_cases mi with ⟨e, hgm⟩ | ⟨mv, ml, hgm, -⟩
    · simp [assemble_burger, hgb, hgm] at h
    · rcases get_cheese_cases ci with ⟨e, hgc⟩ | ⟨cv, cl, hgc, -⟩
      · simp [assemble_burger, hgb, hgm, hgc] at h
      · simp only [assemble_burger, hgb, hgm, hgc, cbp_bmc363] at h
        cases h
        exact round2_363

theorem assemble_burger_hardcoded_price_witness :
    (⟨"sesame", "beef", "ketchup and mustard", "cheddar", 1, 363 / 100⟩ : BurgerData).price
        = 363 / 100 ∧
    priceLookup "meat" = 0 :=
  assemble_burger_hardcoded_price (.ok "sesame") (.ok "beef") (.ok "cheddar") initialState _
    assemble_example_eq

/-- C10: when `assemble_burger` fails, `last_burger` is left untouched;
it is overwritten — with the freshly built description — only on the
success path. -/
theorem assemble_burger_last_cache (bi mi ci : Except String String) (s : BurgerState) :
    ((assemble_burger bi mi ci s).2.1 = none →
      (assemble_burger bi mi ci s).1.last_burger = s.last_burger) ∧
    (∀ d : BurgerData, (assemble_burger bi mi ci s).2.1 = some d →
      (assemble_burger bi mi ci s).1.last_burger = some d.description) := by
  rcases get_bun_cases bi with ⟨e, hgb⟩ | ⟨bv, bl, hgb, -⟩
  · refine ⟨fun _ => ?_, fun d hd => ?_⟩
    · simp only [assemble_burger, hgb]
    · simp [assemble_burger, hgb] at hd
  · rcases get_meat_cases mi with ⟨e, hgm⟩ | ⟨mv, ml, hgm, -⟩
    · refine ⟨fun _ => ?_, fun d hd => ?_⟩
      · simp only [assemble_burger, hgb, hgm]
      · simp [assemble_burger, hgb, hgm] at hd
    · rcases get_cheese_cases ci with ⟨e, hgc⟩ | ⟨cv, cl, hgc, -⟩
      · refine ⟨fun _ => ?_, fun d hd => ?_⟩
        · simp only [assemble_burger, hgb, hgm, hgc]
        · simp [assemble_burger, hgb, hgm, hgc] at hd
      · refine ⟨fun hn => ?_, fun d hd => ?_⟩
        · simp [assemble_burger, hgb, hgm, hgc, cbp_bmc363] at hn
        · simp only [assemble_burger, hgb, hgm, hgc, cbp_bmc363] at hd ⊢
          cases hd
          rfl

theorem assemble_burger_last_cache_witness :
    (assemble_burger (.error "EOFError") (.ok "beef") (.ok "cheddar")
        ⟨5, some "previous burger"⟩).1.last_burger = some "previous burger" :=
  (assemble_burger_last_cache (.error "EOFError") (.ok "beef") (.ok "cheddar")
    ⟨5, some "previous burger"⟩).1 rfl

end Burger
